import Mathlib

/-!
Shallow embedding of the JSON-repair / campaign-generation utilities of the
healthcare-recruiting front-end (src/src/utils/jobExtraction.ts together with
the inlined aiUtils module, src/src/utils/campaignAssistantAI.ts and
src/src/utils/openai.ts).

Strings are modelled as Lean `String`s (lists of characters); the JavaScript
runtime values flowing through `JSON.parse` and the untyped post-processing
code are modelled by the inductive `JsonValue`, which includes `undefined` for the
JavaScript `undefined` value (property lookups that miss return it, and
property access *on* `null`/`undefined` throws a TypeError, modelled with
`Except`).  The external LLM call is modelled by an oracle parameter
`resp : Option String`: `none` stands for a request that threw or returned no
content, `some r` for a response with text `r`.

Numbers are stored in exact decimal form `num m e` (the value m * 10^e) with
the mantissa normalised (no trailing zeros, and 0 is `num 0 0`), so that the
different spellings of one JavaScript number that can arise from JSON.parse
coincide.  Exotic double formatting (1e21 and above) is irrelevant to every
function modelled here.
-/

/-- A JavaScript runtime value as produced by `JSON.parse` and manipulated by
the untyped post-processing code, plus a constructor for `undefined`. -/
inductive JsonValue where
  | undefined : JsonValue
  | null : JsonValue
  | bool : Bool → JsonValue
  | num : Int → Int → JsonValue
  | str : String → JsonValue
  | arr : List JsonValue → JsonValue
  | obj : List (String × JsonValue) → JsonValue

/-- Last-binding-wins field lookup, matching JavaScript object semantics where
a duplicate key in a JSON text overrides the earlier one. A missing key gives
`undefined`. -/
def jsLookup (fs : List (String × JsonValue)) (k : String) : JsonValue :=
  fs.foldl (fun acc p => if p.1 = k then p.2 else acc) JsonValue.undefined

/-- Property access `v[k]`: throws a TypeError on `null` and `undefined`,
returns `undefined` for the (non-numeric, non-length) keys used by this code
on primitives and arrays. -/
def jsGet (v : JsonValue) (k : String) : Except String JsonValue :=
  match v with
  | .null => .error ("TypeError: Cannot read properties of null (reading " ++ k ++ ")")
  | .undefined => .error ("TypeError: Cannot read properties of undefined (reading " ++ k ++ ")")
  | .obj fs => .ok (jsLookup fs k)
  | _ => .ok .undefined

/-- JavaScript truthiness of the modelled values. -/
def truthy : JsonValue → Bool
  | .undefined => false
  | .null => false
  | .bool b => b
  | .num m _ => m != 0
  | .str s => !s.isEmpty
  | .arr _ => true
  | .obj _ => true

/-- `x || d` on JavaScript values. -/
def jsOrV (x d : JsonValue) : JsonValue := if truthy x then x else d

/-- The four JSON whitespace characters accepted by `JSON.parse`. -/
def jsonWs (c : Char) : Bool :=
  c == ' ' || c == '\t' || c == '\n' || c == '\r'

/-- Digit test for the JSON number grammar. -/
def isDigitChar (c : Char) : Bool := '0' ≤ c && c ≤ '9'

/-- Numeric value of a list of decimal digits. -/
def digitsToNat (ds : List Char) : Nat :=
  ds.foldl (fun a c => a * 10 + (c.toNat - 48)) 0

/-- Build the normalised `JsonValue.num` from sign, digit list and decimal
exponent: trailing zeros are moved into the exponent and 0 is `num 0 0`. -/
def mkJsonNum (neg : Bool) (digits : List Char) (e : Int) : JsonValue :=
  let stripped := (digits.reverse.dropWhile (· == '0')).reverse
  if stripped.isEmpty then .num 0 0
  else
    let m : Int := Int.ofNat (digitsToNat stripped)
    .num (if neg then -m else m) (e + (Int.ofNat (digits.length - stripped.length)))

/-- Parse the body of a JSON string literal (input starts after the opening
quote); returns the decoded characters and the rest after the closing quote.
`\uXXXX` escapes outside the valid `Char` range (lone surrogates) decode to
`Char.ofNat`'s default, an edge never exercised by the claims. -/
def parseStrBody : Nat → List Char → Except String (List Char × List Char)
  | 0, _ => .error "string parser fuel exhausted"
  | _ + 1, [] => .error "Unterminated string in JSON"
  | fuel + 1, c :: cs =>
    if c == '"' then .ok ([], cs)
    else if c == '\\' then
      match cs with
      | [] => .error "Unterminated string in JSON"
      | e :: cs2 =>
        if e == 'u' then
          match cs2 with
          | h1 :: h2 :: h3 :: h4 :: cs3 =>
            let isHex := fun (h : Char) =>
              h.isDigit || ('a' ≤ h && h ≤ 'f') || ('A' ≤ h && h ≤ 'F')
            match isHex h1 && isHex h2 && isHex h3 && isHex h4 with
            | true =>
              let hexVal := fun (h : Char) =>
                if h.isDigit then h.toNat - 48
                else if 'a' ≤ h && h ≤ 'f' then h.toNat - 87
                else h.toNat - 55
              let n := ((hexVal h1) * 4096 + (hexVal h2) * 256 + (hexVal h3) * 16 + hexVal h4)
              (parseStrBody fuel cs3).map (fun p => (Char.ofNat n :: p.1, p.2))
            | false => .error "Bad Unicode escape in JSON"
          | _ => .error "Bad Unicode escape in JSON"
        else
          let dec : Except String Char :=
            if e == '"' then .ok '"'
            else if e == '\\' then .ok '\\'
            else if e == '/' then .ok '/'
            else if e == 'b' then .ok '\x08'
            else if e == 'f' then .ok '\x0c'
            else if e == 'n' then .ok '\n'
            else if e == 'r' then .ok '\r'
            else if e == 't' then .ok '\t'
            else .error "Bad escaped character in JSON"
          match dec with
          | .ok d => (parseStrBody fuel cs2).map (fun p => (d :: p.1, p.2))
          | .error msg => .error msg
    else if c.toNat < 32 then .error "Bad control character in JSON string literal"
    else (parseStrBody fuel cs).map (fun p => (c :: p.1, p.2))

/-- Parse a JSON number at the head of the input (first char is `-` or a
digit). Implements the JSON grammar: no leading zeros, optional fraction and
exponent. -/
def parseNum (cs : List Char) : Except String (JsonValue × List Char) :=
  let (neg, cs1) := match cs with
    | '-' :: r => (true, r)
    | _ => (false, cs)
  let intDigits := cs1.takeWhile isDigitChar
  if intDigits.isEmpty then .error "Unexpected token in JSON number"
  else if intDigits.length > 1 && intDigits.head? == some '0' then
    .error "Unexpected number with leading zero in JSON"
  else
    let r1 := cs1.drop intDigits.length
    let (fracDigits, r2, fracOk) := match r1 with
      | '.' :: rf =>
        let fd := rf.takeWhile isDigitChar
        (fd, rf.drop fd.length, !fd.isEmpty)
      | _ => ([], r1, true)
    if !fracOk then .error "Missing digits after decimal point in JSON"
    else
      match r2 with
      | e :: r3 =>
        if e == 'e' || e == 'E' then
          let (expNeg, r4) := match r3 with
            | '+' :: rr => (false, rr)
            | '-' :: rr => (true, rr)
            | _ => (false, r3)
          let expDigits := r4.takeWhile isDigitChar
          if expDigits.isEmpty then .error "Missing digits in JSON exponent"
          else
            let ev : Int := Int.ofNat (digitsToNat expDigits)
            let ev := if expNeg then -ev else ev
            .ok (mkJsonNum neg (intDigits ++ fracDigits) (ev - Int.ofNat fracDigits.length),
                 r4.drop expDigits.length)
        else
          .ok (mkJsonNum neg (intDigits ++ fracDigits) (-(Int.ofNat fracDigits.length)), r2)
      | [] =>
        .ok (mkJsonNum neg (intDigits ++ fracDigits) (-(Int.ofNat fracDigits.length)), r2)

/-- Array tail parser: given a value parser, parses `v (, v)* ]` (first value
at the head of the input). Parameterising over the value parser keeps the
recursion structural on the fuel. -/
def parseElemsWith (pv : List Char → Except String (JsonValue × List Char)) :
    Nat → List Char → Except String (List JsonValue × List Char)
  | 0, _ => .error "array parser fuel exhausted"
  | fuel + 1, cs => do
    let (v, r) ← pv cs
    match r.dropWhile jsonWs with
    | ',' :: r2 => do
      let (vs, r3) ← parseElemsWith pv fuel r2
      .ok (v :: vs, r3)
    | ']' :: r2 => .ok ([v], r2)
    | _ => .error "Expected comma or closing bracket in JSON array"

/-- Object member parser: parses `"k" : v (, "k" : v)* }` (first key at the
head of the input, leading whitespace allowed). -/
def parseMembersWith (pv : List Char → Except String (JsonValue × List Char)) :
    Nat → List Char → Except String (List (String × JsonValue) × List Char)
  | 0, _ => .error "object parser fuel exhausted"
  | fuel + 1, cs =>
    match cs.dropWhile jsonWs with
    | '"' :: r => do
      let (k, r1) ← parseStrBody (r.length + 1) r
      match r1.dropWhile jsonWs with
      | ':' :: r2 => do
        let (v, r3) ← pv r2
        match r3.dropWhile jsonWs with
        | ',' :: r4 => do
          let (ms, r5) ← parseMembersWith pv fuel r4
          .ok ((String.mk k, v) :: ms, r5)
        | '}' :: r4 => .ok ([(String.mk k, v)], r4)
        | _ => .error "Expected comma or closing brace in JSON object"
      | _ => .error "Expected colon in JSON object"
    | _ => .error "Expected string key in JSON object"

/-- Check that the given literal chars follow; used for null/true/false. -/
def expectLit (lit : List Char) (cs : List Char) (v : JsonValue) :
    Except String (JsonValue × List Char) :=
  if lit.isPrefixOf cs then .ok (v, cs.drop lit.length)
  else .error "Unexpected token in JSON"

/-- Recursive JSON value parser (the grammar of `JSON.parse`), fuelled so the
recursion is structural and kernel-reducible. Skips leading whitespace. -/
def parseVal : Nat → List Char → Except String (JsonValue × List Char)
  | 0, _ => .error "JSON parser fuel exhausted"
  | fuel + 1, cs =>
    match cs.dropWhile jsonWs with
    | [] => .error "Unexpected end of JSON input"
    | 'n' :: rest => expectLit ['u', 'l', 'l'] rest .null
    | 't' :: rest => expectLit ['r', 'u', 'e'] rest (.bool true)
    | 'f' :: rest => expectLit ['a', 'l', 's', 'e'] rest (.bool false)
    | '"' :: rest => (parseStrBody (rest.length + 1) rest).map (fun p => (.str (String.mk p.1), p.2))
    | '[' :: rest =>
      (match rest.dropWhile jsonWs with
       | ']' :: r2 => .ok (.arr [], r2)
       | _ => (parseElemsWith (parseVal fuel) (rest.length + 1) rest).map
                (fun p => (.arr p.1, p.2)))
    | '{' :: rest =>
      (match rest.dropWhile jsonWs with
       | '}' :: r2 => .ok (.obj [], r2)
       | _ => (parseMembersWith (parseVal fuel) (rest.length + 1) rest).map
                (fun p => (.obj p.1, p.2)))
    | c :: _ =>
      if c == '-' || isDigitChar c then parseNum (cs.dropWhile jsonWs)
      else .error "Unexpected token in JSON"

/-- The platform `JSON.parse` on a whole string: one value surrounded by
whitespace. The fuel `2 * length + 8` dominates the recursion depth, since
every nested call follows the consumption of at least one character. -/
def jsonParse (s : String) : Except String JsonValue :=
  match parseVal (2 * s.data.length + 8) s.data with
  | .error e => .error e
  | .ok (v, rest) =>
    if (rest.dropWhile jsonWs).isEmpty then .ok v
    else .error "Unexpected non-whitespace character after JSON data"


/-- Whether an `Except` computation succeeded. -/
def isOkExcept {α : Type} : Except String α → Bool
  | .ok _ => true
  | .error _ => false

/-- Total observation of a field used to state properties: the looked-up
field of an object, `undefined` otherwise. On non-null, non-undefined values
it agrees with `jsGet`. -/
def fieldOf (v : JsonValue) (k : String) : JsonValue :=
  match v with
  | .obj fs => jsLookup fs k
  | _ => .undefined

/-- `typeof v === 'string'`. -/
def JsonValue.isStr : JsonValue → Bool
  | .str _ => true
  | _ => false

/-- `Array.isArray(v)`. -/
def JsonValue.isArr : JsonValue → Bool
  | .arr _ => true
  | _ => false

/-! ### The shared aiUtils module (inlined in src/src/utils/jobExtraction.ts) -/

namespace AiUtils

/-- The JavaScript `\s` class (and `String.prototype.trim`): ASCII whitespace
plus no-break space; the rarer Unicode space characters never occur in the
texts handled here. -/
def jsWs (c : Char) : Bool :=
  c == ' ' || c == '\t' || c == '\n' || c == '\r' || c == '\x0b' || c == '\x0c' || c == ' '

/-- The JavaScript `\w` class: ASCII letters, digits and underscore. -/
def jsWordChar (c : Char) : Bool := c.isAlpha || c.isDigit || c == '_'

/-- A character matched by `[\w\s]` (and by the `\s*[\w\s]*` tails below). -/
def wordOrWs (c : Char) : Bool := jsWordChar c || jsWs c

/-- Case-insensitive prefix test, for the `/i` regex flags. -/
def ciStarts : List Char → List Char → Bool
  | [], _ => true
  | _ :: _, [] => false
  | p :: ps, c :: cs => (p.toLower == c.toLower) && ciStarts ps cs

def fencePat : List Char := "```".data

def jsonFencePat : List Char := "```json".data

/-- `.replace(/^PAT\s*/i, '')` for a literal pattern `PAT`: an anchored match
removes the prefix and the following whitespace run. -/
def stripLeadFence (pat : List Char) (l : List Char) : List Char :=
  if ciStarts pat l then (l.drop pat.length).dropWhile jsWs else l

/-- Remove trailing `\s`-whitespace. -/
def rstripWs (l : List Char) : List Char := (l.reverse.dropWhile jsWs).reverse

/-- `.replace(/\s*```\s*$/i, '')`: a match exists iff the string ends with
three backticks followed only by whitespace; the replacement also removes the
whitespace run before the backticks. -/
def stripTrailFenceLoose (l : List Char) : List Char :=
  let u := rstripWs l
  if fencePat.reverse.isPrefixOf u.reverse then rstripWs (u.take (u.length - 3)) else l

/-- `.trim()`. -/
def trimWs (l : List Char) : List Char := rstripWs (l.dropWhile jsWs)

/-- `indexOf('{')`. -/
def firstBraceIdx (l : List Char) : Option Nat := l.findIdx? (· == '{')

/-- `lastIndexOf('}')`. -/
def lastCloseIdx (l : List Char) : Option Nat :=
  (l.reverse.findIdx? (· == '}')).map (fun j => l.length - 1 - j)

/-- `if (jsonStart !== -1 && jsonEnd !== -1 && jsonStart <= jsonEnd)
cleaned = cleaned.substring(jsonStart, jsonEnd + 1)`. -/
def extractBraces (l : List Char) : List Char :=
  match firstBraceIdx l, lastCloseIdx l with
  | some i, some j => if i ≤ j then (l.drop i).take (j + 1 - i) else l
  | _, _ => l

/-- Position of the first `'{'` reachable through `[\w\s]` characters only
(the extent of the unique possible match of `/^\s*[\w\s]*?(?=\{)/`). -/
def findBracePrefix : List Char → Option Nat
  | [] => none
  | c :: cs =>
    if c == '{' then some 0
    else if wordOrWs c then (findBracePrefix cs).map (· + 1) else none

/-- `.replace(/^\s*[\w\s]*?(?=\{)/g, '')`: with the `^` anchor and no
multiline flag only one match at position 0 is possible; the lazy quantifier
stops at the first `'{'`. -/
def stripPreBraceText (l : List Char) : List Char :=
  match findBracePrefix l with
  | some k => l.drop k
  | none => l

/-- Index of the leftmost `'}'` whose entire tail consists of `[\w\s]`
characters (the start of the leftmost match of `/\}\s*[\w\s]*$/`). -/
def findCloseTail : List Char → Option Nat
  | [] => none
  | c :: cs =>
    if c == '}' && cs.all wordOrWs then some 0
    else (findCloseTail cs).map (· + 1)

/-- `.replace(/\}\s*[\w\s]*$/g, '}')`: the leftmost match runs to the end of
the string and is replaced by a single closing brace. -/
def stripPostBraceText (l : List Char) : List Char :=
  match findCloseTail l with
  | some p => l.take (p + 1)
  | none => l

/-- The character-level pipeline of the shared `cleanJsonResponse`
(jobExtraction.ts lines 292-310). -/
def cleanCore (l : List Char) : List Char :=
  let c2 := stripLeadFence fencePat (stripLeadFence jsonFencePat l)
  let c3 := trimWs (stripTrailFenceLoose c2)
  let c4 := extractBraces c3
  trimWs (stripPostBraceText (stripPreBraceText c4))

/-- `cleanJsonResponse` from the shared aiUtils module. The initial guard
`if (!response || typeof response !== 'string') return response` returns the
empty string unchanged (the non-string case is outside the String type). -/
def cleanJsonResponse (s : String) : String :=
  if s.data.isEmpty then s else String.mk (cleanCore s.data)

/-- One global single-character replacement `.replace(/c/g, rep)`. -/
def replaceChar (c : Char) (rep : List Char) : List Char → List Char
  | [] => []
  | x :: xs => (if x == c then rep else [x]) ++ replaceChar c rep xs

/-- `.replace(/\b/g, '\\b')`: the pattern is a *word boundary*, so a literal
backslash-b is inserted at every boundary between word and non-word context
(including the two string ends). `prev` records whether the previous
character was a word character. -/
def wordBoundaryIns (prev : Bool) : List Char → List Char
  | [] => if prev then ['\\', 'b'] else []
  | c :: cs =>
    let w := jsWordChar c
    (if prev != w then ['\\', 'b'] else []) ++ c :: wordBoundaryIns w cs

/-- `sanitizeJsonString` (jobExtraction.ts lines 316-328): the six escape
replacements in source order followed by the `/\b/g` replacement. -/
def sanitizeJsonString (s : String) : String :=
  String.mk (wordBoundaryIns false
    (replaceChar '\x0c' ['\\', 'f']
      (replaceChar '\t' ['\\', 't']
        (replaceChar '\r' ['\\', 'r']
          (replaceChar '\n' ['\\', 'n']
            (replaceChar '"' ['\\', '"']
              (replaceChar '\\' ['\\', '\\'] s.data)))))))

/-- `.replace(/\\"/g, '"')`. -/
def replaceEscQuote : List Char → List Char
  | '\\' :: '"' :: r => '"' :: replaceEscQuote r
  | c :: r => c :: replaceEscQuote r
  | [] => []

/-- `.replace(/"/g, '\\"')`. -/
def replaceQuote : List Char → List Char
  | '"' :: r => '\\' :: '"' :: replaceQuote r
  | c :: r => c :: replaceQuote r
  | [] => []

/-- Try to match `/"([^"]*)":\s*"([^"]*(?:\\.[^"]*)*)"/` at the head of the
input. Backtracking makes the first successful parse take the value group as
the run up to the *next* quote (the greedy `[^"]*` followed by a group that
cannot start at a quote), so the effective value is `[^"]*`. Returns
key, value and the rest after the match. -/
def matchKV (cs : List Char) : Option (List Char × List Char × List Char) :=
  match cs with
  | '"' :: r =>
    let key := r.takeWhile (· != '"')
    match r.drop key.length with
    | '"' :: ':' :: r2 =>
      match (r2.dropWhile jsWs) with
      | '"' :: r4 =>
        let v := r4.takeWhile (· != '"')
        match r4.drop v.length with
        | '"' :: r5 => some (key, v, r5)
        | _ => none
      | _ => none
    | _ => none
  | _ => none

/-- The first repair replacement of `parseJsonSafely`'s second attempt:
global left-to-right application of `matchKV`, rewriting each match to
`"key": "cleanValue"` where `cleanValue` re-escapes quotes (an identity here,
since the captured value can contain none). -/
def fixQuotesAux : Nat → List Char → List Char
  | 0, cs => cs
  | _ + 1, [] => []
  | fuel + 1, c :: cs =>
    match matchKV (c :: cs) with
    | some (k, v, rest) =>
      let cv := replaceQuote (replaceEscQuote v)
      '"' :: (k ++ '"' :: ':' :: ' ' :: '"' :: (cv ++ '"' :: fixQuotesAux fuel rest))
    | none => c :: fixQuotesAux fuel cs

/-- Inner replacement of the array fixer: global rewrite of `/"..."/` pairs,
re-escaping quotes inside each item (again an identity on `[^"]*` content). -/
def fixItemsAux : Nat → List Char → List Char
  | 0, cs => cs
  | _ + 1, [] => []
  | fuel + 1, c :: cs =>
    if c == '"' then
      let item := cs.takeWhile (· != '"')
      match cs.drop item.length with
      | '"' :: r2 => '"' :: (replaceQuote (replaceEscQuote item) ++ '"' :: fixItemsAux fuel r2)
      | _ => '"' :: fixItemsAux fuel cs
    else c :: fixItemsAux fuel cs

/-- Try to match `/"([^"]*)":\s*\[([^\]]*)\]/` at the head of the input. -/
def matchKArr (cs : List Char) : Option (List Char × List Char × List Char) :=
  match cs with
  | '"' :: r =>
    let key := r.takeWhile (· != '"')
    match r.drop key.length with
    | '"' :: ':' :: r2 =>
      match (r2.dropWhile jsWs) with
      | '[' :: r4 =>
        let content := r4.takeWhile (· != ']')
        match r4.drop content.length with
        | ']' :: r5 => some (key, content, r5)
        | _ => none
      | _ => none
    | _ => none
  | _ => none

/-- The second repair replacement of the second attempt: rewrite each
`"key":\s*[ ... ]` to `"key": [ ... ]` with the items re-quoted. -/
def fixArraysAux : Nat → List Char → List Char
  | 0, cs => cs
  | _ + 1, [] => []
  | fuel + 1, c :: cs =>
    match matchKArr (c :: cs) with
    | some (k, content, rest) =>
      '"' :: (k ++ '"' :: ':' :: ' ' :: '[' ::
        (fixItemsAux (content.length + 1) content ++ ']' :: fixArraysAux fuel rest))
    | none => c :: fixArraysAux fuel cs

/-- The whole second attempt of `parseJsonSafely`: fix quoted string values,
then fix array values. -/
def secondAttemptFix (l : List Char) : List Char :=
  fixArraysAux (l.length + 1) (fixQuotesAux (l.length + 1) l)

/-- Try to match the `extractField` regex
`/"NAME":\s*"([^"]*(?:\\\\.[^"]*)*)"/i` at the head of the input; as in
`matchKV`, the first successful backtracking parse makes the value group the
run to the next quote. -/
def tryFieldAt (nm : List Char) (cs : List Char) : Option (List Char) :=
  match cs with
  | '"' :: r =>
    if ciStarts nm r then
      match r.drop nm.length with
      | '"' :: ':' :: r2 =>
        match (r2.dropWhile jsWs) with
        | '"' :: r4 =>
          let v := r4.takeWhile (· != '"')
          match r4.drop v.length with
          | '"' :: _ => some v
          | _ => none
        | _ => none
      | _ => none
    else none
  | _ => none

/-- Leftmost match of the `extractField` regex over the whole input. -/
def extractFieldAux (nm : List Char) : Nat → List Char → Option (List Char)
  | 0, _ => none
  | _ + 1, [] => none
  | fuel + 1, c :: cs =>
    match tryFieldAt nm (c :: cs) with
    | some v => some v
    | none => extractFieldAux nm fuel cs

/-- `extractField` of the third attempt: the captured value with `\"`
unescaped, or the supplied default. -/
def extractField (nm : String) (l : List Char) (dflt : JsonValue) : JsonValue :=
  match extractFieldAux nm.data (l.length + 1) l with
  | some v => .str (String.mk (replaceEscQuote v))
  | none => dflt

/-- Try to match the `extractArray` regex `/"NAME":\s*\[(.*?)\]/is` at the
head of the input: lazy content up to the first closing bracket. -/
def tryArrAt (nm : List Char) (cs : List Char) : Option (List Char) :=
  match cs with
  | '"' :: r =>
    if ciStarts nm r then
      match r.drop nm.length with
      | '"' :: ':' :: r2 =>
        match (r2.dropWhile jsWs) with
        | '[' :: r4 =>
          let content := r4.takeWhile (· != ']')
          match r4.drop content.length with
          | ']' :: _ => some content
          | _ => none
        | _ => none
      | _ => none
    else none
  | _ => none

/-- Leftmost match of the `extractArray` regex over the whole input. -/
def extractArrAux (nm : List Char) : Nat → List Char → Option (List Char)
  | 0, _ => none
  | _ + 1, [] => none
  | fuel + 1, c :: cs =>
    match tryArrAt nm (c :: cs) with
    | some v => some v
    | none => extractArrAux nm fuel cs

/-- `arrayContent.match(/"([^"]*(?:\\.[^"]*)*)"/g)`: the quoted segments of
the array content, scanned left to right. -/
def quotedItems : Nat → List Char → List (List Char)
  | 0, _ => []
  | _ + 1, [] => []
  | fuel + 1, c :: cs =>
    if c == '"' then
      let item := cs.takeWhile (· != '"')
      match cs.drop item.length with
      | '"' :: r2 => item :: quotedItems fuel r2
      | _ => quotedItems fuel cs
    else quotedItems fuel cs

/-- `extractArray` of the third attempt. -/
def extractArray (nm : String) (l : List Char) : JsonValue :=
  match extractArrAux nm.data (l.length + 1) l with
  | some content =>
    .arr ((quotedItems (content.length + 1) content).map
      (fun it => .str (String.mk (replaceEscQuote it))))
  | none => .arr []

/-- The third attempt of `parseJsonSafely`: manual reconstruction of the
fixed field set from the *original* string. Every operation here is total, so
the surrounding try/catch (and with it the final
`throw new Error('Failed to parse JSON after multiple attempts')`)
is unreachable. -/
def manualReconstruct (l : List Char) : JsonValue :=
  .obj [
    ("score", extractField "score" l (.num 0 0)),
    ("reasons", extractArray "reasons" l),
    ("category", extractField "category" l (.str "potential")),
    ("title", extractField "title" l (.str "")),
    ("description", extractField "description" l (.str "")),
    ("requirements", extractArray "requirements" l),
    ("location", extractField "location" l (.str "")),
    ("name", extractField "name" l (.str "")),
    ("industry", extractField "industry" l (.str "")),
    ("size", extractField "size" l (.str "")),
    ("values", extractArray "values" l),
    ("benefits", extractArray "benefits" l),
    ("cultureKeywords", extractArray "cultureKeywords" l)]

/-- `parseJsonSafely` (jobExtraction.ts lines 330-423): direct parse, then
parse of the repaired string, then the always-succeeding manual
reconstruction. -/
def parseJsonSafely (s : String) : Except String JsonValue :=
  match jsonParse s with
  | .ok v => .ok v
  | .error _ =>
    match jsonParse (String.mk (secondAttemptFix s.data)) with
    | .ok v => .ok v
    | .error _ => .ok (manualReconstruct s.data)

end AiUtils

/-! ### Shared runtime helpers for the view-layer utilities -/

/-- Lower-case a string character-wise (`String.prototype.toLowerCase` on the
ASCII texts handled here). -/
def lowerStr (s : String) : String := String.mk (s.data.map Char.toLower)

/-- `parseInt` (radix auto-detection) on a string: skip whitespace, optional
sign, `0x` hex prefix or leading decimal digits; `none` is NaN. -/
def parseIntStr (s : String) : Option Int :=
  let cs := s.data.dropWhile AiUtils.jsWs
  let (neg, cs1) : Bool × List Char := match cs with
    | '-' :: r => (true, r)
    | '+' :: r => (false, r)
    | _ => (false, cs)
  let isHexPre := match cs1 with
    | '0' :: x :: _ => x == 'x' || x == 'X'
    | _ => false
  if isHexPre then
    let hex := (cs1.drop 2).takeWhile
      (fun h => h.isDigit || ('a' ≤ h && h ≤ 'f') || ('A' ≤ h && h ≤ 'F'))
    if hex.isEmpty then none
    else
      let n := hex.foldl (fun a h =>
        a * 16 + (if h.isDigit then h.toNat - 48
                  else if 'a' ≤ h && h ≤ 'f' then h.toNat - 87 else h.toNat - 55)) 0
      some (if neg then -(Int.ofNat n) else Int.ofNat n)
  else
    let ds := cs1.takeWhile Char.isDigit
    if ds.isEmpty then none
    else some (if neg then -(Int.ofNat (digitsToNat ds)) else Int.ofNat (digitsToNat ds))

/-- Truncation toward zero of the decimal number m * 10^e. -/
def truncInt (m e : Int) : Int :=
  if 0 ≤ e then m * (10 : Int) ^ e.toNat
  else
    let q := Int.ofNat (m.natAbs / (10 : Nat) ^ (-e).toNat)
    if m < 0 then -q else q

/-- `parseInt(v)` on a JavaScript value: the value is converted with
`String(...)` and the result scanned for leading digits; `none` is NaN.
For numbers this truncates toward zero (the exponent-notation spellings of
doubles beyond 1e21 never arise here); for an array the scan is decided by
the first element, since the `,` separators of the join stop it. -/
def parseIntOfJson : JsonValue → Option Int
  | .undefined => none
  | .null => none
  | .bool _ => none
  | .num m e => some (truncInt m e)
  | .str s => parseIntStr s
  | .arr [] => none
  | .arr (x :: _) => parseIntOfJson x
  | .obj _ => none

/-- `parseInt(x) || d`: NaN and 0 are falsy. -/
def intOr (o : Option Int) (d : Int) : Int :=
  match o with
  | some n => if n = 0 then d else n
  | none => d

/-- An element of an email sequence (the `EmailStep` interface of
src/src/utils/openai.ts). The TypeScript field types are annotations only:
the converters fill the fields from unvalidated `JSON.parse` output through
`||` defaults, so a field can hold any runtime value and is modelled as
`JsonValue`. -/
structure EmailStep where
  id : String
  type : JsonValue
  subject : JsonValue
  content : JsonValue
  delay : JsonValue
  delayUnit : JsonValue

/-- A JavaScript object, for the untyped `Partial<CampaignDraft>` records. -/
abbrev JsObj := List (String × JsonValue)

/-! ### src/src/utils/openai.ts -/

namespace Openai

/-- The `CampaignPrompt` interface. -/
structure CampaignPrompt where
  campaignType : String
  targetAudience : String
  campaignGoal : String
  contentSources : List String
  aiInstructions : String
  tone : String
  companyName : String
  recruiterName : String

/-- Per-element conversion of `generateCampaignSequence`'s `.map` callback
(openai.ts lines 115-132): field accesses throw on a null/undefined element;
`delayUnit` is forced to `immediately` at index 0 and otherwise kept only
when valid; `delay` is `Math.max(0, parseInt(email.delay) || (index === 0 ?
0 : index * 2))`. -/
def convertEmailStep (i : Nat) (email : JsonValue) : Except String EmailStep := do
  let du ← jsGet email "delayUnit"
  let t ← jsGet email "type"
  let sj ← jsGet email "subject"
  let ct ← jsGet email "content"
  let dl ← jsGet email "delay"
  pure {
    id := "step-" ++ toString (i + 1),
    type := .str (match t with
      | .str s => if s = "connection" then "connection" else "email"
      | _ => "email"),
    subject := jsOrV sj (.str ("Follow-up " ++ toString (i + 1))),
    content := jsOrV ct (.str "Email content here..."),
    delay := .num (max 0 (intOr (parseIntOfJson dl) (if i = 0 then 0 else 2 * (i : Int)))) 0,
    delayUnit := .str (if i = 0 then "immediately"
      else match du with
        | .str u => if u = "immediately" || u = "business days" then u else "business days"
        | _ => "business days") }

/-- Conversion of the whole parsed array, threading the index. -/
def convertStepsList (i : Nat) : List JsonValue → Except String (List EmailStep)
  | [] => .ok []
  | e :: es => do
    let s ← convertEmailStep i e
    let rest ← convertStepsList (i + 1) es
    .ok (s :: rest)

/-- `emailData.map(...)`: only an array has `.map`; anything else throws
inside the surrounding try block. -/
def convertSteps (v : JsonValue) : Except String (List EmailStep) :=
  match v with
  | .arr l => convertStepsList 0 l
  | _ => .error "TypeError: emailData.map is not a function"

/-- The hard-coded fallback sequence of `generateCampaignSequence`
(openai.ts lines 142-194). -/
def fallbackSequence (p : CampaignPrompt) : List EmailStep := [
  { id := "step-1",
    type := .str "email",
    subject := .str "\x7b\x7bFirst Name\x7d\x7d, interested in a new opportunity?",
    content := .str ("Hi \x7b\x7bFirst Name\x7d\x7d,\n\nI hope this message finds you well. I came across your profile and was impressed by your experience in healthcare.\n\nWe have some exciting opportunities at \x7b\x7bCompany Name\x7d\x7d that I think would be a great fit for your background and career goals.\n\nWould you be open to a brief conversation about these opportunities?\n\nBest regards,\n" ++ p.recruiterName),
    delay := .num 0 0,
    delayUnit := .str "immediately" },
  { id := "step-2",
    type := .str "email",
    subject := .str "Following up on healthcare opportunities",
    content := .str ("Hi \x7b\x7bFirst Name\x7d\x7d,\n\nI wanted to follow up on my previous message about opportunities at \x7b\x7bCompany Name\x7d\x7d.\n\nI understand you're likely busy, but I believe these roles could be a significant step forward in your career. We offer competitive compensation, excellent benefits, and a supportive work environment.\n\nWould you have 10 minutes this week for a quick call?\n\nBest,\n" ++ p.recruiterName),
    delay := .num 3 0,
    delayUnit := .str "business days" },
  { id := "step-3",
    type := .str "email",
    subject := .str "Last follow-up - \x7b\x7bCompany Name\x7d\x7d opportunities",
    content := .str ("Hi \x7b\x7bFirst Name\x7d\x7d,\n\nThis will be my final follow-up regarding the opportunities at \x7b\x7bCompany Name\x7d\x7d.\n\nI wanted to make sure you didn't miss out on these positions that align well with your background. If you're interested in learning more, please feel free to reach out.\n\nIf now isn't the right time, I completely understand and wish you all the best in your career.\n\nBest regards,\n" ++ p.recruiterName),
    delay := .num 5 0,
    delayUnit := .str "business days" }]

/-- `generateCampaignSequence` (openai.ts lines 50-199). The response text is
parsed directly with `JSON.parse` (no cleaning); any throw inside the try
block — a failed request or absent content (`resp = none`), a parse error, or
a conversion error — yields the fallback sequence. -/
def generateCampaignSequence (p : CampaignPrompt) (resp : Option String) : List EmailStep :=
  match resp with
  | none => fallbackSequence p
  | some r =>
    match jsonParse r with
    | .error _ => fallbackSequence p
    | .ok v =>
      match convertSteps v with
      | .ok steps => steps
      | .error _ => fallbackSequence p

end Openai

/-! ### src/src/utils/campaignAssistantAI.ts -/

namespace CampaignAssistantAI

/-- `.replace(/\s*```$/i, '')`: unlike the aiUtils variant there is no
trailing `\s*`, so a match requires the string to end in the three backticks
themselves. -/
def stripTrailFenceTight (l : List Char) : List Char :=
  if AiUtils.fencePat.reverse.isPrefixOf l.reverse
  then AiUtils.rstripWs (l.take (l.length - 3)) else l

/-- The local `cleanJsonResponse` of campaignAssistantAI.ts (lines 22-29):
only fence stripping and trimming, no brace extraction. -/
def cleanJsonResponse (s : String) : String :=
  String.mk (AiUtils.trimWs (stripTrailFenceTight
    (AiUtils.stripLeadFence AiUtils.fencePat
      (AiUtils.stripLeadFence AiUtils.jsonFencePat s.data))))

/-- A chat message (the fields of `AssistantMessage` used here). -/
structure AssistantMessage where
  type : String
  content : String

/-- The `AssistantResponse` interface; like `EmailStep`, the fields filled
from unvalidated parse output are modelled as runtime values. The
`campaignDraft` is the JavaScript object produced by the spread merge. -/
structure AssistantResponse where
  message : JsonValue
  suggestions : JsonValue
  campaignDraft : JsObj
  nextStep : JsonValue
  isComplete : JsonValue

/-- `determineNextStep` (lines 307-313); `!draft.goal` is falsiness, so a
missing field and an empty string both count as absent. -/
def determineNextStep (d : JsObj) : String :=
  if !truthy (jsLookup d "goal") then "goal"
  else if !truthy (jsLookup d "targetAudience") then "audience"
  else if !truthy (jsLookup d "tone") then "tone"
  else if !truthy (jsLookup d "additionalContext") then "context"
  else "review"

/-- The `fallbackResponses` table of `createFallbackResponse` (lines
320-360), keyed by the next step with the goal entry as the
`|| fallbackResponses.goal` default. -/
def fallbackContent (ns : String) (rs : List String) : String × List String :=
  if ns = "audience" then
    ("Great goal! Now, who is your target audience for this campaign?",
     if rs.length > 0 then rs.take 4
     else ["Healthcare professionals nationwide",
           "Registered nurses in specific locations",
           "New graduates entering healthcare",
           "Experienced specialists in oncology/ICU"])
  else if ns = "tone" then
    ("Perfect! What tone would you like for your campaign communications?",
     ["Professional", "Friendly", "Casual", "Formal"])
  else if ns = "context" then
    ("Excellent! Is there any additional context or specific requirements for this campaign?",
     ["Include company benefits information",
      "Focus on career development opportunities",
      "Highlight work-life balance",
      "Emphasize competitive compensation"])
  else if ns = "review" then
    ("Let me review your campaign details. Does everything look correct?",
     ["Yes, generate the campaign", "Let me make some changes"])
  else
    ("I'd love to help you create a campaign! What's the main goal you want to achieve with this campaign?",
     ["Build a talent community for healthcare professionals",
      "Nurture passive candidates with industry insights",
      "Reengage inactive candidates with new opportunities",
      "Provide educational content to boost candidate skills"])

/-- `createFallbackResponse` (lines 315-371): message and suggestions from
the table, the draft passed through unchanged, `isComplete: false`. -/
def createFallbackResponse (userInput : String) (d : JsObj) (rs : List String) :
    AssistantResponse :=
  let ns := determineNextStep d
  let pair := fallbackContent ns rs
  { message := .str pair.1,
    suggestions := .arr (pair.2.map JsonValue.str),
    campaignDraft := d,
    nextStep := .str ns,
    isComplete := .bool false }

/-- Fields contributed by `...v` in an object spread: an object spreads its
fields, a string or array its indexed elements, everything else nothing. -/
def spreadFields : JsonValue → JsObj
  | .obj fs => fs
  | .str s => s.data.enum.map (fun p => (toString p.1, JsonValue.str (String.mk [p.2])))
  | .arr l => l.enum.map (fun p => (toString p.1, p.2))
  | _ => []

/-- The response validation of `processUserInput`'s success path (lines
146-152): `||` defaults for every field and the spread merge
`{ ...currentDraft, ...parsedResponse.campaignDraft }`; the field accesses
throw when the parsed value is null. -/
def buildAssistantResponse (currentDraft : JsObj) (v : JsonValue) :
    Except String AssistantResponse := do
  let m ← jsGet v "message"
  let sg ← jsGet v "suggestions"
  let cd ← jsGet v "campaignDraft"
  let ns ← jsGet v "nextStep"
  let ic ← jsGet v "isComplete"
  .ok {
    message := jsOrV m (.str "I'm here to help you create your campaign."),
    suggestions := jsOrV sg (.arr []),
    campaignDraft := currentDraft ++ spreadFields cd,
    nextStep := jsOrV ns (.str (determineNextStep currentDraft)),
    isComplete := jsOrV ic (.bool false) }

/-- `processUserInput` (lines 31-163): the conversation history feeds only
the prompt, so the observable result is a function of the current draft, the
recent searches and the response oracle; every throw inside the try block
falls back to `createFallbackResponse`. -/
def processUserInput (userInput : String) (history : List AssistantMessage)
    (currentDraft : JsObj) (recentSearches : List String) (resp : Option String) :
    AssistantResponse :=
  match resp with
  | none => createFallbackResponse userInput currentDraft recentSearches
  | some r =>
    match jsonParse (cleanJsonResponse r) with
    | .error _ => createFallbackResponse userInput currentDraft recentSearches
    | .ok v =>
      match buildAssistantResponse currentDraft v with
      | .ok res => res
      | .error _ => createFallbackResponse userInput currentDraft recentSearches

/-- The fields of a campaign example used by this module. The type lives in
src/src/data/campaignExamples.ts, which is not part of the sources; the
fields are the ones this file reads. -/
structure SequenceAndExamples where
  steps : Nat
  examples : List String

structure CampaignExample where
  campaignType : String
  collateralToUse : List String
  sequenceAndExamples : SequenceAndExamples

/-- The fields of a complete `CampaignDraft` used by
`generateCampaignFromDraft` (the type lives in src/src/types, not in the
sources): `goal` is a string, `matchedExampleId` and `additionalContext` are
optional. -/
structure CampaignDraft where
  goal : String
  matchedExampleId : Option String
  targetAudience : String
  tone : String
  companyName : String
  recruiterName : String
  additionalContext : Option String

/-- `o || d` on an optional string field (empty string is falsy). -/
def optStrOr (o : Option String) (d : String) : String :=
  match o with
  | some s => if s.isEmpty then d else s
  | none => d

/-- An optional field placed directly in an object literal. -/
def strOrUndef : Option String → JsonValue
  | some s => .str s
  | none => .undefined

/-- The email steps built by `createFallbackCampaign` from the example's
step titles (lines 391-405). -/
def fallbackStepsAux (d : CampaignDraft) (i : Nat) : List String → List EmailStep
  | [] => []
  | title :: rest =>
    { id := "step-" ++ toString (i + 1),
      type := .str "email",
      subject := .str ("\x7b\x7bFirst Name\x7d\x7d, " ++ lowerStr title),
      content := .str ("Hi \x7b\x7bFirst Name\x7d\x7d,\n\nI hope this message finds you well. " ++ title ++ " at \x7b\x7bCompany Name\x7d\x7d.\n\n" ++ optStrOr d.additionalContext "We have exciting opportunities that align with your background and career goals." ++ "\n\nBest regards,\n" ++ d.recruiterName),
      delay := .num (if i = 0 then 0 else 2 * (i : Int)) 0,
      delayUnit := .str (if i = 0 then "immediately" else "business days") }
    :: fallbackStepsAux d (i + 1) rest

/-- `createFallbackCampaign` (lines 373-408). -/
def createFallbackCampaign (d : CampaignDraft) (ex : CampaignExample) :
    JsonValue × List EmailStep :=
  let name := String.mk (d.goal.data.take 50) ++
    (if 50 < d.goal.data.length then "..." else "")
  let campaignData : JsonValue := .obj [
    ("name", .str name),
    ("type", .str ex.campaignType),
    ("targetAudience", .str d.targetAudience),
    ("campaignGoal", .str d.goal),
    ("tone", .str d.tone),
    ("companyName", .str d.companyName),
    ("recruiterName", .str d.recruiterName),
    ("contentSources", .arr (ex.collateralToUse.map JsonValue.str)),
    ("aiInstructions", strOrUndef d.additionalContext)]
  (campaignData, fallbackStepsAux d 0 ex.sequenceAndExamples.examples)

/-- Per-element conversion of `generateCampaignFromDraft`'s success path
(lines 276-283): index 0 forces delay 0 and `immediately`; later indices
apply `||` defaults, keeping whatever truthy values the model returned. -/
def convertAssistantStep (i : Nat) (step : JsonValue) : Except String EmailStep := do
  let t ← jsGet step "type"
  let sj ← jsGet step "subject"
  let ct ← jsGet step "content"
  let dl ← jsGet step "delay"
  let du ← jsGet step "delayUnit"
  .ok {
    id := "step-" ++ toString (i + 1),
    type := jsOrV t (.str "email"),
    subject := jsOrV sj (.str ("Follow-up " ++ toString (i + 1))),
    content := jsOrV ct (.str "Email content here..."),
    delay := if i = 0 then .num 0 0 else jsOrV dl (.num (2 * (i : Int)) 0),
    delayUnit := if i = 0 then .str "immediately" else jsOrV du (.str "business days") }

def convertAssistantList (i : Nat) : List JsonValue → Except String (List EmailStep)
  | [] => .ok []
  | e :: es => do
    let s ← convertAssistantStep i e
    let rest ← convertAssistantList (i + 1) es
    .ok (s :: rest)

/-- `result.emailSteps.map(...)`: throws unless the field is an array. -/
def convertAssistantSteps (v : JsonValue) : Except String (List EmailStep) :=
  match v with
  | .arr l => convertAssistantList 0 l
  | _ => .error "TypeError: result.emailSteps.map is not a function"

/-- The example-selection logic at the head of `generateCampaignFromDraft`
(lines 171-182): lookup by id when `matchedExampleId` is truthy, then
fallback lookup by goal.  The lookup functions live in the missing
campaignExamples module and are taken as parameters. -/
def matchExample (findById findByGoal : String → Option CampaignExample)
    (d : CampaignDraft) : Option CampaignExample :=
  let m0 : Option CampaignExample :=
    match d.matchedExampleId with
    | some eid => if eid.isEmpty then none else findById eid
    | none => none
  match m0 with
  | some e => some e
  | none => findByGoal d.goal

/-- `generateCampaignFromDraft` (lines 165-297): throws (outside any try)
when no example matches; afterwards every failure of the request, the parse
or the conversion falls back to `createFallbackCampaign`. The success path
reads `result.emailSteps`, converts it, then reads `result.campaignData`. -/
def generateCampaignFromDraft (findById findByGoal : String → Option CampaignExample)
    (d : CampaignDraft) (resp : Option String) :
    Except String (JsonValue × List EmailStep) :=
  match matchExample findById findByGoal d with
  | none => .error "No matching campaign example found. Cannot proceed without a guideline."
  | some ex =>
    match resp with
    | none => .ok (createFallbackCampaign d ex)
    | some r =>
      match jsonParse (cleanJsonResponse r) with
      | .error _ => .ok (createFallbackCampaign d ex)
      | .ok parsed =>
        match (do
          let es ← jsGet parsed "emailSteps"
          let steps ← convertAssistantSteps es
          let cd ← jsGet parsed "campaignData"
          (.ok (cd, steps) : Except String (JsonValue × List EmailStep))) with
        | .ok res => .ok res
        | .error _ => .ok (createFallbackCampaign d ex)

end CampaignAssistantAI

/-! ### src/src/utils/jobExtraction.ts -/

namespace JobExtraction

/-- The `ExtractedJobData` interface. `validateJsonStructure` re-establishes
the TypeScript types at runtime, so here the fields can be typed. -/
structure ExtractedJobData where
  title : String
  description : String
  requirements : List String
  location : String
  salary_range : Option String
  employment_type : String
  company_name : Option String
  reference_number : Option String
  shift_timings : Option String
  apply_url : String

/-- `typeof x === 'string' ? x : d`. -/
def strField (v : JsonValue) (d : String) : String :=
  match v with
  | .str s => s
  | _ => d

/-- `typeof x === 'string' ? x : undefined`. -/
def optStrField (v : JsonValue) : Option String :=
  match v with
  | .str s => some s
  | _ => none

/-- `['full-time', 'part-time', 'contract', 'temporary'].includes(x) ? x :
'full-time'`: `includes` uses strict equality, so only an equal string
survives. -/
def etField (v : JsonValue) : String :=
  match v with
  | .str s =>
    if s = "full-time" || s = "part-time" || s = "contract" || s = "temporary"
    then s else "full-time"
  | _ => "full-time"

/-- `Array.isArray(x) ? x.filter(req => typeof req === 'string') : [...]`. -/
def reqField (v : JsonValue) : List String :=
  match v with
  | .arr l => l.filterMap (fun x => match x with | .str s => some s | _ => none)
  | _ => ["Professional certification required"]

/-- `validateJsonStructure` (jobExtraction.ts lines 17-38): each field access
throws when the input is null or undefined; otherwise string fields are
defaulted, `requirements` keeps only string elements or gets its default, and
`employment_type` is constrained by the `.includes` membership test. -/
def validateJsonStructure (data : JsonValue) : Except String ExtractedJobData := do
  let title ← jsGet data "title"
  let description ← jsGet data "description"
  let requirements ← jsGet data "requirements"
  let location ← jsGet data "location"
  let salary ← jsGet data "salary_range"
  let et ← jsGet data "employment_type"
  let company ← jsGet data "company_name"
  let ref ← jsGet data "reference_number"
  let shift ← jsGet data "shift_timings"
  let applyUrl ← jsGet data "apply_url"
  .ok {
    title := strField title "Healthcare Professional",
    description := strField description "Join our healthcare team.",
    requirements := reqField requirements,
    location := strField location "Multiple locations",
    salary_range := optStrField salary,
    employment_type := etField et,
    company_name := optStrField company,
    reference_number := optStrField ref,
    shift_timings := optStrField shift,
    apply_url := strField applyUrl "" }

/-- Leftmost index of an occurrence of `pat` in the input. -/
def findSubIdx (pat : List Char) : Nat → List Char → Option Nat
  | 0, _ => none
  | fuel + 1, l =>
    if pat.isPrefixOf l then some 0
    else match l with
      | [] => none
      | _ :: xs => (findSubIdx pat fuel xs).map (· + 1)

/-- `.replace(pat, rep)` with a string pattern: first occurrence only. -/
def replaceFirstSub (pat rep : List Char) (l : List Char) : List Char :=
  match findSubIdx pat (l.length + 1) l with
  | some i => l.take i ++ rep ++ l.drop (i + pat.length)
  | none => l

/-- `.split(c)`. -/
def splitOnChar (c : Char) : List Char → List (List Char)
  | [] => [[]]
  | x :: xs =>
    match splitOnChar c xs with
    | h :: t => if x == c then [] :: h :: t else (x :: h) :: t
    | [] => [[x]]

/-- `.includes(pat)` substring containment. -/
def containsSub (pat : List Char) (l : List Char) : Bool :=
  (findSubIdx pat (l.length + 1) l).isSome

/-- `charAt(0).toUpperCase() + slice(1)`. -/
def capitalize : List Char → List Char
  | [] => []
  | c :: cs => c.toUpper :: cs

/-- Models the platform URL constructor used by `createFallbackJobData`
(`new URL(jobUrl).hostname`) for the common `scheme://host[:port][/path]`
shape: the lower-cased host between the scheme separator and the first
delimiter; `none` models the constructor throwing when there is no
scheme-separated non-empty host. The WHATWG parser's exotic normalisations
are outside the scope of this model. -/
def urlHostname (u : String) : Option String :=
  match findSubIdx "://".data (u.data.length + 1) u.data with
  | some i =>
    if i = 0 then none
    else
      let host := (u.data.drop (i + 3)).takeWhile
        (fun c => !(c == '/' || c == ':' || c == '?' || c == '#'))
      if host.isEmpty then none else some (lowerStr (String.mk host))
  | none => none

/-- `createFallbackJobData` (jobExtraction.ts lines 114-163). -/
def createFallbackJobData (jobUrl : String) : ExtractedJobData :=
  let urlParts := (lowerStr jobUrl).data
  let title :=
    if containsSub "nurse".data urlParts then "Registered Nurse"
    else if containsSub "doctor".data urlParts || containsSub "physician".data urlParts then "Physician"
    else if containsSub "therapist".data urlParts then "Therapist"
    else if containsSub "technician".data urlParts then "Medical Technician"
    else if containsSub "administrator".data urlParts then "Healthcare Administrator"
    else "Healthcare Professional"
  let employment_type :=
    if containsSub "part-time".data urlParts then "part-time"
    else if containsSub "contract".data urlParts then "contract"
    else if containsSub "temporary".data urlParts then "temporary"
    else "full-time"
  let company_name : Option String :=
    match urlHostname jobUrl with
    | some host =>
      let h2 := replaceFirstSub "www.".data [] host.data
      match splitOnChar '.' h2 with
      | p :: _ :: _ => some (String.mk (capitalize p))
      | _ => none
    | none => none
  { title := title,
    description := "We are seeking a qualified " ++ title ++ " to join our healthcare team. This position offers an opportunity to make a meaningful impact in patient care while working in a supportive and professional environment.\n\nThe successful candidate will be responsible for providing high-quality healthcare services, collaborating with multidisciplinary teams, and maintaining the highest standards of patient care and safety.\n\nWe offer competitive compensation, comprehensive benefits, and opportunities for professional growth and development.",
    requirements := [
      "Relevant professional certification/license required",
      "Previous healthcare experience preferred",
      "Strong communication and interpersonal skills",
      "Ability to work effectively in a team environment",
      "Commitment to patient care excellence"],
    location := "Multiple locations",
    salary_range := none,
    employment_type := employment_type,
    company_name := company_name,
    reference_number := none,
    shift_timings := none,
    apply_url := jobUrl }

/-- `extractJobFromUrl` (jobExtraction.ts lines 40-112): on success the
validated data has its `apply_url` overwritten with the input URL; any throw
inside the try block yields `createFallbackJobData jobUrl`. -/
def extractJobFromUrl (jobUrl : String) (resp : Option String) : ExtractedJobData :=
  match resp with
  | none => createFallbackJobData jobUrl
  | some r =>
    match AiUtils.parseJsonSafely (AiUtils.cleanJsonResponse r) with
    | .error _ => createFallbackJobData jobUrl
    | .ok parsed =>
      match validateJsonStructure parsed with
      | .error _ => createFallbackJobData jobUrl
      | .ok result => { result with apply_url := jobUrl }

end JobExtraction

/-! ### Helper lemmas: brace-delimited strings are fixed points of the
cleaning pipelines -/

theorem getLast?_mem_chars : ∀ {l : List Char} {a : Char}, l.getLast? = some a → a ∈ l := by
  intro l
  induction l with
  | nil => intro a h; simp at h
  | cons c cs ih =>
    intro a h
    cases cs with
    | nil => simp at h; simp [h]
    | cons c2 cs2 =>
      rw [List.getLast?_cons_cons] at h
      exact List.mem_cons_of_mem _ (ih h)

theorem exists_rev_cons {l : List Char} {a : Char} (h : l.getLast? = some a) :
    ∃ m, l.reverse = a :: m := by
  have hh : l.reverse.head? = some a := by rw [List.head?_reverse]; exact h
  cases hr : l.reverse with
  | nil => rw [hr] at hh; simp at hh
  | cons b m =>
    rw [hr] at hh
    simp at hh
    exact ⟨m, by rw [hh]⟩

theorem dropWhile_ws_cons {a : Char} {l : List Char} (ha : AiUtils.jsWs a = false) :
    (a :: l).dropWhile AiUtils.jsWs = a :: l := by
  rw [List.dropWhile_cons, ha]
  simp

theorem rstripWs_eq_self {l : List Char} {a : Char} (h : l.getLast? = some a)
    (ha : AiUtils.jsWs a = false) : AiUtils.rstripWs l = l := by
  obtain ⟨m, hm⟩ := exists_rev_cons h
  unfold AiUtils.rstripWs
  rw [hm, dropWhile_ws_cons ha, ← hm, List.reverse_reverse]

theorem ciStarts_cons_false {p c : Char} {ps cs : List Char}
    (h : (p.toLower == c.toLower) = false) :
    AiUtils.ciStarts (p :: ps) (c :: cs) = false := by
  simp only [AiUtils.ciStarts, h, Bool.false_and]

theorem head_brace_cons {t : List Char} (h1 : t.head? = some '{') :
    ∃ rest, t = '{' :: rest := by
  cases t with
  | nil => simp at h1
  | cons c cs => simp at h1; exact ⟨cs, by rw [h1]⟩

theorem stripLeadFence_brace {pat : List Char} {ps : List Char} (hpat : pat = '`' :: ps)
    {t : List Char} (h1 : t.head? = some '{') : AiUtils.stripLeadFence pat t = t := by
  obtain ⟨rest, ht⟩ := head_brace_cons h1
  have hci : AiUtils.ciStarts pat t = false := by
    rw [hpat, ht]
    exact ciStarts_cons_false (by decide)
  simp [AiUtils.stripLeadFence, hci]

theorem notEndsFence {t : List Char} (h2 : t.getLast? = some '}') :
    AiUtils.fencePat.reverse.isPrefixOf t.reverse = false := by
  obtain ⟨m, hm⟩ := exists_rev_cons h2
  have hfr : AiUtils.fencePat.reverse = '`' :: '`' :: '`' :: [] := rfl
  rw [hfr, hm]
  simp only [List.isPrefixOf]
  rw [show (('`' : Char) == '}') = false from by decide, Bool.false_and]

theorem looseFence_brace {t : List Char} (h2 : t.getLast? = some '}') :
    AiUtils.stripTrailFenceLoose t = t := by
  have hrs : AiUtils.rstripWs t = t := rstripWs_eq_self h2 (by decide)
  simp [AiUtils.stripTrailFenceLoose, hrs, notEndsFence h2]

theorem trimWs_brace {t : List Char} (h1 : t.head? = some '{')
    (h2 : t.getLast? = some '}') : AiUtils.trimWs t = t := by
  obtain ⟨rest, ht⟩ := head_brace_cons h1
  unfold AiUtils.trimWs
  rw [ht, dropWhile_ws_cons (by decide), ← ht, rstripWs_eq_self h2 (by decide)]

theorem findCloseTail_getLast : ∀ {l : List Char}, l.getLast? = some '}' →
    AiUtils.findCloseTail l = some (l.length - 1) := by
  intro l
  induction l with
  | nil => intro h; simp at h
  | cons c cs ih =>
    intro h
    cases cs with
    | nil =>
      simp at h
      subst h
      simp [AiUtils.findCloseTail]
    | cons c2 cs2 =>
      rw [List.getLast?_cons_cons] at h
      have hmem : '}' ∈ c2 :: cs2 := getLast?_mem_chars h
      have hall : (c2 :: cs2).all AiUtils.wordOrWs = false := by
        by_contra hcontra
        have htrue : (c2 :: cs2).all AiUtils.wordOrWs = true := by
          cases hv : (c2 :: cs2).all AiUtils.wordOrWs with
          | true => rfl
          | false => exact absurd hv hcontra
        have := List.all_eq_true.mp htrue '}' hmem
        simp [AiUtils.wordOrWs, AiUtils.jsWordChar, AiUtils.jsWs] at this
      have hcond : (c == '}' && (c2 :: cs2).all AiUtils.wordOrWs) = false := by
        rw [hall, Bool.and_false]
      rw [AiUtils.findCloseTail, hcond]
      simp only [Bool.false_eq_true, if_false, ih h, Option.map_some']
      simp [List.length_cons]

/-- Strings that begin with `'{'` and end with `'}'` are fixed points of the
shared cleaning pipeline. -/
theorem cleanCore_fix (t : List Char) (h1 : t.head? = some '{')
    (h2 : t.getLast? = some '}') : AiUtils.cleanCore t = t := by
  obtain ⟨rest, ht⟩ := head_brace_cons h1
  have hA : AiUtils.stripLeadFence AiUtils.jsonFencePat t = t :=
    stripLeadFence_brace rfl h1
  have hB : AiUtils.stripLeadFence AiUtils.fencePat t = t :=
    stripLeadFence_brace rfl h1
  have hC : AiUtils.stripTrailFenceLoose t = t := looseFence_brace h2
  have hD : AiUtils.trimWs t = t := trimWs_brace h1 h2
  have hE : AiUtils.extractBraces t = t := by
    have hfi : AiUtils.firstBraceIdx t = some 0 := by
      rw [AiUtils.firstBraceIdx, ht]
      simp [List.findIdx?_cons]
    have hli : AiUtils.lastCloseIdx t = some (t.length - 1) := by
      obtain ⟨m, hm⟩ := exists_rev_cons h2
      rw [AiUtils.lastCloseIdx, hm]
      simp [List.findIdx?_cons]
    rw [AiUtils.extractBraces, hfi, hli]
    simp only [Nat.zero_le, if_true]
    rw [List.drop_zero]
    have hlen : 1 ≤ t.length := by rw [ht]; simp
    have heq : t.length - 1 + 1 - 0 = t.length := by omega
    rw [heq]
    simp
  have hF : AiUtils.stripPreBraceText t = t := by
    rw [AiUtils.stripPreBraceText, ht]
    simp [AiUtils.findBracePrefix]
  have hG : AiUtils.stripPostBraceText t = t := by
    rw [AiUtils.stripPostBraceText, findCloseTail_getLast h2]
    show List.take (t.length - 1 + 1) t = t
    have hlen : 1 ≤ t.length := by rw [ht]; simp
    have heq : t.length - 1 + 1 = t.length := by omega
    rw [heq]
    simp
  rw [AiUtils.cleanCore]
  rw [hA, hB, hC, hD, hE, hF, hG, hD]

/-- String-level fixed-point fact for the shared `cleanJsonResponse`. -/
theorem cleanJsonResponse_fix (s : String) (h1 : s.data.head? = some '{')
    (h2 : s.data.getLast? = some '}') : AiUtils.cleanJsonResponse s = s := by
  obtain ⟨d⟩ := s
  have hne : d.isEmpty = false := by
    obtain ⟨rest, ht⟩ := head_brace_cons h1
    have ht2 : d = '{' :: rest := ht
    rw [ht2]
    rfl
  unfold AiUtils.cleanJsonResponse
  simp only [hne, Bool.false_eq_true, if_false]
  rw [cleanCore_fix d h1 h2]

/-- String-level fixed-point fact for campaignAssistantAI's local
`cleanJsonResponse`. -/
theorem campaignClean_fix (s : String) (h1 : s.data.head? = some '{')
    (h2 : s.data.getLast? = some '}') : CampaignAssistantAI.cleanJsonResponse s = s := by
  obtain ⟨d⟩ := s
  have hA : AiUtils.stripLeadFence AiUtils.jsonFencePat d = d :=
    stripLeadFence_brace rfl h1
  have hB : AiUtils.stripLeadFence AiUtils.fencePat d = d :=
    stripLeadFence_brace rfl h1
  have hT : CampaignAssistantAI.stripTrailFenceTight d = d := by
    simp [CampaignAssistantAI.stripTrailFenceTight, notEndsFence h2]
  unfold CampaignAssistantAI.cleanJsonResponse
  rw [show (String.mk d).data = d from rfl, hA, hB, hT, trimWs_brace h1 h2]

/-- C1: for every string accepted by the standard JSON parser,
`parseJsonSafely` returns exactly the parse result; the repair attempts are
behind the failure branch of the first `JSON.parse`. -/
theorem C1_direct_parse_passthrough (s : String) (v : JsonValue)
    (h : jsonParse s = Except.ok v) : AiUtils.parseJsonSafely s = Except.ok v := by
  unfold AiUtils.parseJsonSafely
  rw [h]

/-- C1 witness: a concrete JSON text on which the direct parse succeeds and
`parseJsonSafely` returns the same value. -/
theorem C1_witness :
    jsonParse "\x7b\"a\": 1\x7d" = Except.ok (.obj [("a", .num 1 0)]) ∧
    AiUtils.parseJsonSafely "\x7b\"a\": 1\x7d" = Except.ok (.obj [("a", .num 1 0)]) :=
  ⟨rfl, C1_direct_parse_passthrough _ _ rfl⟩

/-- C9: `parseJsonSafely` is total: the manual third attempt is a pure
computation that always produces an object, so the trailing throw branch is
unreachable and every input yields a value. -/
theorem C9_parseJsonSafely_total (s : String) :
    ∃ v, AiUtils.parseJsonSafely s = Except.ok v := by
  unfold AiUtils.parseJsonSafely
  cases h1 : jsonParse s with
  | ok v => exact ⟨v, rfl⟩
  | error e1 =>
    cases h2 : jsonParse (String.mk (AiUtils.secondAttemptFix s.data)) with
    | ok v => exact ⟨v, rfl⟩
    | error e2 => exact ⟨AiUtils.manualReconstruct s.data, rfl⟩

/-- C8 counterexample: the shared `cleanJsonResponse` is not idempotent: on
an input whose cleaning leaves a fresh leading fence, a second pass strips
it. -/
theorem C8_counterexample :
    AiUtils.cleanJsonResponse (AiUtils.cleanJsonResponse "``` ```x") ≠
      AiUtils.cleanJsonResponse "``` ```x" := by decide

/-- C8 (amended): the shared `cleanJsonResponse` is idempotent on every
input whose cleaned result starts with `'{'` and ends with `'}'` — the shape
the function is designed to produce on LLM output carrying a JSON object. -/
theorem C8_idempotent_on_brace_output (s : String)
    (h1 : (AiUtils.cleanJsonResponse s).data.head? = some '{')
    (h2 : (AiUtils.cleanJsonResponse s).data.getLast? = some '}') :
    AiUtils.cleanJsonResponse (AiUtils.cleanJsonResponse s) =
      AiUtils.cleanJsonResponse s :=
  cleanJsonResponse_fix _ h1 h2

/-- C8 witness: a concrete input with surrounding prose whose cleaned result
is brace-delimited, so a second cleaning is the identity on it. -/
theorem C8_witness :
    (AiUtils.cleanJsonResponse "reply \x7b\"a\": 1\x7d done").data.head? = some '{' ∧
    (AiUtils.cleanJsonResponse "reply \x7b\"a\": 1\x7d done").data.getLast? = some '}' ∧
    AiUtils.cleanJsonResponse (AiUtils.cleanJsonResponse "reply \x7b\"a\": 1\x7d done") =
      AiUtils.cleanJsonResponse "reply \x7b\"a\": 1\x7d done" :=
  ⟨rfl, rfl, C8_idempotent_on_brace_output _ rfl rfl⟩

/-- C2 counterexample: the two `cleanJsonResponse` implementations differ:
the shared one extracts the brace-delimited substring, the campaign-assistant
one does not. -/
theorem C2_counterexample :
    CampaignAssistantAI.cleanJsonResponse "x\x7b\x7d" ≠
      AiUtils.cleanJsonResponse "x\x7b\x7d" := by decide

/-- C2 (amended): the two implementations are not the same function, but they
agree — both are the identity — on every string that starts with `'{'` and
ends with `'}'`. -/
theorem C2_agree_on_brace_delimited (s : String)
    (h1 : s.data.head? = some '{') (h2 : s.data.getLast? = some '}') :
    CampaignAssistantAI.cleanJsonResponse s = AiUtils.cleanJsonResponse s ∧
    CampaignAssistantAI.cleanJsonResponse s = s := by
  have hc := campaignClean_fix s h1 h2
  have ha := cleanJsonResponse_fix s h1 h2
  exact ⟨by rw [hc, ha], hc⟩

/-- C2 witness: both cleaners act as the identity on a brace-delimited JSON
object text. -/
theorem C2_witness :
    CampaignAssistantAI.cleanJsonResponse "\x7b\"a\": 1\x7d" =
      AiUtils.cleanJsonResponse "\x7b\"a\": 1\x7d" ∧
    CampaignAssistantAI.cleanJsonResponse "\x7b\"a\": 1\x7d" = "\x7b\"a\": 1\x7d" :=
  C2_agree_on_brace_delimited "\x7b\"a\": 1\x7d" rfl rfl

/-- C10: the `/\b/g` replacement in `sanitizeJsonString` is a word-boundary
match, not a backspace escape: already on the one-letter string "a" the
result, wrapped in quotes, is a JSON literal denoting U+0008·a·U+0008, so the
round-trip property fails and the code contradicts its own
"Escape backspaces" comment. -/
theorem C10_word_boundary_bug :
    AiUtils.sanitizeJsonString "a" = "\\ba\\b" ∧
    jsonParse ("\"" ++ AiUtils.sanitizeJsonString "a" ++ "\"") =
      Except.ok (.str "\x08a\x08") ∧
    ("\x08a\x08" : String) ≠ "a" :=
  ⟨rfl, rfl, by decide⟩


/-- C3: whenever the request/extraction fails (`resp = none`) or the JSON
parse of the response throws, `generateCampaignSequence` returns the fixed
three-step fallback, whose ids are step-1..step-3, whose first step is
immediate with delay 0 and whose later steps wait 3 and 5 business days. -/
theorem C3_fallback_sequence_on_error (p : Openai.CampaignPrompt) (resp : Option String)
    (h : resp = none ∨ ∃ r e, resp = some r ∧ jsonParse r = Except.error e) :
    Openai.generateCampaignSequence p resp = Openai.fallbackSequence p ∧
    (Openai.fallbackSequence p).map EmailStep.id = ["step-1", "step-2", "step-3"] ∧
    (Openai.fallbackSequence p).map EmailStep.delay =
      [.num 0 0, .num 3 0, .num 5 0] ∧
    (Openai.fallbackSequence p).map EmailStep.delayUnit =
      [.str "immediately", .str "business days", .str "business days"] := by
  refine ⟨?_, rfl, rfl, rfl⟩
  rcases h with h | ⟨r, e, hr, hp⟩
  · subst h
    rfl
  · subst hr
    have hred : Openai.generateCampaignSequence p (some r) =
        match jsonParse r with
        | .error _ => Openai.fallbackSequence p
        | .ok v =>
          match Openai.convertSteps v with
          | .ok steps => steps
          | .error _ => Openai.fallbackSequence p := rfl
    rw [hred, hp]

/-- C3 witness: the fallback is returned for a concrete prompt with no
response. -/
theorem C3_witness :
    Openai.generateCampaignSequence
        ⟨"Reengagement", "nurses", "reconnect", [], "", "Professional", "Acme", "Dana"⟩
        none =
      Openai.fallbackSequence
        ⟨"Reengagement", "nurses", "reconnect", [], "", "Professional", "Acme", "Dana"⟩ :=
  (C3_fallback_sequence_on_error _ none (Or.inl rfl)).1

/-- C4: for every URL and every response oracle outcome, the extracted job
data carries the original URL as `apply_url`: the success path overwrites the
parsed field and the fallback embeds the URL. -/
theorem C4_apply_url_preserved (jobUrl : String) (resp : Option String) :
    (JobExtraction.extractJobFromUrl jobUrl resp).apply_url = jobUrl := by
  cases resp with
  | none => rfl
  | some r =>
    have hred : JobExtraction.extractJobFromUrl jobUrl (some r) =
        match AiUtils.parseJsonSafely (AiUtils.cleanJsonResponse r) with
        | .error _ => JobExtraction.createFallbackJobData jobUrl
        | .ok parsed =>
          match JobExtraction.validateJsonStructure parsed with
          | .error _ => JobExtraction.createFallbackJobData jobUrl
          | .ok result => { result with apply_url := jobUrl } := rfl
    rw [hred]
    split
    · rfl
    · split <;> rfl

/-- C6: when the request fails or the response fails to parse,
`processUserInput` answers with the fallback response, whose draft is the
`currentDraft` argument unchanged and whose `isComplete` is `false`. -/
theorem C6_fallback_preserves_draft (u : String)
    (hist : List CampaignAssistantAI.AssistantMessage) (d : JsObj)
    (rs : List String) (resp : Option String)
    (h : resp = none ∨ ∃ r e, resp = some r ∧
      jsonParse (CampaignAssistantAI.cleanJsonResponse r) = Except.error e) :
    (CampaignAssistantAI.processUserInput u hist d rs resp).campaignDraft = d ∧
    (CampaignAssistantAI.processUserInput u hist d rs resp).isComplete =
      JsonValue.bool false := by
  rcases h with h | ⟨r, e, hr, hp⟩
  · subst h
    exact ⟨rfl, rfl⟩
  · subst hr
    have hred : CampaignAssistantAI.processUserInput u hist d rs (some r) =
        match jsonParse (CampaignAssistantAI.cleanJsonResponse r) with
        | .error _ => CampaignAssistantAI.createFallbackResponse u d rs
        | .ok v =>
          match CampaignAssistantAI.buildAssistantResponse d v with
          | .ok res => res
          | .error _ => CampaignAssistantAI.createFallbackResponse u d rs := rfl
    rw [hred, hp]
    exact ⟨rfl, rfl⟩

/-- C6 witness: a concrete draft survives a failed request unchanged with
`isComplete = false`. -/
theorem C6_witness :
    (CampaignAssistantAI.processUserInput "hello" [] [("goal", .str "grow")] []
        none).campaignDraft = [("goal", .str "grow")] ∧
    (CampaignAssistantAI.processUserInput "hello" [] [("goal", .str "grow")] []
        none).isComplete = JsonValue.bool false :=
  C6_fallback_preserves_draft "hello" [] [("goal", .str "grow")] [] none (Or.inl rfl)

/-- C7: `generateCampaignFromDraft` throws exactly when neither the id lookup
nor the goal lookup finds a campaign example; with a matched example every
failure of the request (`resp = none`) or of the parsing of its response
returns the fallback campaign built from that example instead of
propagating. -/
theorem C7_error_iff_no_example
    (findById findByGoal : String → Option CampaignAssistantAI.CampaignExample)
    (d : CampaignAssistantAI.CampaignDraft) (resp : Option String) :
    ((∃ e, CampaignAssistantAI.generateCampaignFromDraft findById findByGoal d resp =
        Except.error e) ↔
      CampaignAssistantAI.matchExample findById findByGoal d = none) ∧
    (∀ ex, CampaignAssistantAI.matchExample findById findByGoal d = some ex →
      (resp = none ∨ ∃ r e, resp = some r ∧
        jsonParse (CampaignAssistantAI.cleanJsonResponse r) = Except.error e) →
      CampaignAssistantAI.generateCampaignFromDraft findById findByGoal d resp =
        Except.ok (CampaignAssistantAI.createFallbackCampaign d ex)) := by
  cases hm : CampaignAssistantAI.matchExample findById findByGoal d with
  | none =>
    have hred : ∀ (r : Option String),
        CampaignAssistantAI.generateCampaignFromDraft findById findByGoal d r =
          Except.error
            "No matching campaign example found. Cannot proceed without a guideline." := by
      intro r
      unfold CampaignAssistantAI.generateCampaignFromDraft
      rw [hm]
    constructor
    · constructor
      · intro _
        rfl
      · intro _
        exact ⟨_, hred resp⟩
    · intro ex hex _
      cases hex
  | some ex0 =>
    have hred : ∀ (r : Option String),
        CampaignAssistantAI.generateCampaignFromDraft findById findByGoal d r =
          match r with
          | none => Except.ok (CampaignAssistantAI.createFallbackCampaign d ex0)
          | some rr =>
            match jsonParse (CampaignAssistantAI.cleanJsonResponse rr) with
            | .error _ => Except.ok (CampaignAssistantAI.createFallbackCampaign d ex0)
            | .ok parsed =>
              match (do
                  let es ← jsGet parsed "emailSteps"
                  let steps ← CampaignAssistantAI.convertAssistantSteps es
                  let cd ← jsGet parsed "campaignData"
                  (Except.ok (cd, steps) :
                    Except String (JsonValue × List EmailStep))) with
              | .ok res => Except.ok res
              | .error _ => Except.ok (CampaignAssistantAI.createFallbackCampaign d ex0) := by
      intro r
      unfold CampaignAssistantAI.generateCampaignFromDraft
      rw [hm]
    have hok : ∀ (r : Option String),
        isOkExcept (CampaignAssistantAI.generateCampaignFromDraft findById findByGoal d r) =
          true := by
      intro r
      rw [hred r]
      split
      · rfl
      · split
        · rfl
        · split <;> rfl
    constructor
    · constructor
      · rintro ⟨e, he⟩
        have hk := hok resp
        rw [he] at hk
        simp [isOkExcept] at hk
      · intro hnone
        cases hnone
    · intro ex hex hfail
      injection hex with hh
      subst hh
      rcases hfail with hrn | ⟨r, e, hr, hp⟩
      · subst hrn
        rw [hred none]
      · subst hr
        have hredS : CampaignAssistantAI.generateCampaignFromDraft findById findByGoal d
            (some r) =
            match jsonParse (CampaignAssistantAI.cleanJsonResponse r) with
            | .error _ => Except.ok (CampaignAssistantAI.createFallbackCampaign d ex0)
            | .ok parsed =>
              match (do
                  let es ← jsGet parsed "emailSteps"
                  let steps ← CampaignAssistantAI.convertAssistantSteps es
                  let cd ← jsGet parsed "campaignData"
                  (Except.ok (cd, steps) :
                    Except String (JsonValue × List EmailStep))) with
              | .ok res => Except.ok res
              | .error _ => Except.ok (CampaignAssistantAI.createFallbackCampaign d ex0) := by
          rw [hred (some r)]
        rw [hredS, hp]

/-- C7 witness: with a concrete draft and example, the id lookup succeeds and
a failed request yields the fallback campaign. -/
theorem C7_witness :
    CampaignAssistantAI.generateCampaignFromDraft
        (fun _ => some ⟨"nurture", ["blog"], ⟨3, ["Welcome aboard", "Check in"]⟩⟩)
        (fun _ => none)
        ⟨"reach nurses", some "id1", "nurses", "warm", "Acme", "Dana", none⟩
        none =
      Except.ok (CampaignAssistantAI.createFallbackCampaign
        ⟨"reach nurses", some "id1", "nurses", "warm", "Acme", "Dana", none⟩
        ⟨"nurture", ["blog"], ⟨3, ["Welcome aboard", "Check in"]⟩⟩) :=
  (C7_error_iff_no_example _ _ _ none).2 _ rfl (Or.inl rfl)

theorem etField_mem (v : JsonValue) :
    JobExtraction.etField v = "full-time" ∨ JobExtraction.etField v = "part-time" ∨
    JobExtraction.etField v = "contract" ∨ JobExtraction.etField v = "temporary" := by
  cases v with
  | str s =>
    have hred : JobExtraction.etField (JsonValue.str s) =
        if s = "full-time" || s = "part-time" || s = "contract" || s = "temporary"
        then s else "full-time" := rfl
    rw [hred]
    split
    · rename_i hcond
      simp at hcond
      tauto
    · exact Or.inl rfl
  | undefined => exact Or.inl rfl
  | null => exact Or.inl rfl
  | bool b => exact Or.inl rfl
  | num m e => exact Or.inl rfl
  | arr l => exact Or.inl rfl
  | obj fs => exact Or.inl rfl

theorem etField_default (v : JsonValue) (h : v.isStr = false) :
    JobExtraction.etField v = "full-time" := by
  cases v <;> first
    | rfl
    | simp [JsonValue.isStr] at h

theorem reqField_default (v : JsonValue) (h : v.isArr = false) :
    JobExtraction.reqField v = ["Professional certification required"] := by
  cases v <;> first
    | rfl
    | simp [JsonValue.isArr] at h

theorem reqField_arr (l : List JsonValue) :
    JobExtraction.reqField (.arr l) =
      l.filterMap (fun x => match x with | .str s => some s | _ => none) := rfl

theorem strField_default (v : JsonValue) (d : String) (h : v.isStr = false) :
    JobExtraction.strField v d = d := by
  cases v <;> first
    | rfl
    | simp [JsonValue.isStr] at h

theorem etField_str_default (s : String) (h1 : s ≠ "full-time")
    (h2 : s ≠ "part-time") (h3 : s ≠ "contract") (h4 : s ≠ "temporary") :
    JobExtraction.etField (JsonValue.str s) = "full-time" := by
  have hred : JobExtraction.etField (JsonValue.str s) =
      if s = "full-time" || s = "part-time" || s = "contract" || s = "temporary"
      then s else "full-time" := rfl
  rw [hred]
  split
  · rename_i hcond
    simp at hcond
    tauto
  · rfl

/-- C5 counterexample: on the input `null` — a value `JSON.parse` can return —
`validateJsonStructure` does not return a record at all: the very first field
access throws a TypeError, refuting the claim for inputs "of any shape". -/
theorem C5_counterexample_null :
    JobExtraction.validateJsonStructure JsonValue.null =
      Except.error "TypeError: Cannot read properties of null (reading title)" := rfl

/-- C5 (amended): for every input value on which property access is defined —
any value other than `null` and `undefined` — `validateJsonStructure` returns
a record whose `employment_type` is one of the four allowed strings — defaulting to
full-time for any other input, whether the field is not a string or a string
outside the allowed set —
whose `requirements` is the string-filtered array or its documented default,
and whose `title`, `description`, `location` and `apply_url` take their
documented defaults when the corresponding inputs are not strings. -/
theorem C5_validate_shape (v : JsonValue) (hn : v ≠ JsonValue.null)
    (hu : v ≠ JsonValue.undefined) :
    ∃ r, JobExtraction.validateJsonStructure v = Except.ok r ∧
      (r.employment_type = "full-time" ∨ r.employment_type = "part-time" ∨
        r.employment_type = "contract" ∨ r.employment_type = "temporary") ∧
      ((fieldOf v "employment_type").isStr = false →
        r.employment_type = "full-time") ∧
      (∀ s, fieldOf v "employment_type" = JsonValue.str s →
        s ≠ "full-time" → s ≠ "part-time" → s ≠ "contract" → s ≠ "temporary" →
        r.employment_type = "full-time") ∧
      ((fieldOf v "requirements").isArr = false →
        r.requirements = ["Professional certification required"]) ∧
      (∀ l, fieldOf v "requirements" = JsonValue.arr l →
        r.requirements =
          l.filterMap (fun x => match x with | .str s => some s | _ => none)) ∧
      ((fieldOf v "title").isStr = false → r.title = "Healthcare Professional") ∧
      ((fieldOf v "description").isStr = false →
        r.description = "Join our healthcare team.") ∧
      ((fieldOf v "location").isStr = false → r.location = "Multiple locations") ∧
      ((fieldOf v "apply_url").isStr = false → r.apply_url = "") := by
  have main : ∀ (w : JsonValue),
      JobExtraction.validateJsonStructure w =
        Except.ok {
          title := JobExtraction.strField (fieldOf w "title") "Healthcare Professional",
          description :=
            JobExtraction.strField (fieldOf w "description") "Join our healthcare team.",
          requirements := JobExtraction.reqField (fieldOf w "requirements"),
          location := JobExtraction.strField (fieldOf w "location") "Multiple locations",
          salary_range := JobExtraction.optStrField (fieldOf w "salary_range"),
          employment_type := JobExtraction.etField (fieldOf w "employment_type"),
          company_name := JobExtraction.optStrField (fieldOf w "company_name"),
          reference_number := JobExtraction.optStrField (fieldOf w "reference_number"),
          shift_timings := JobExtraction.optStrField (fieldOf w "shift_timings"),
          apply_url := JobExtraction.strField (fieldOf w "apply_url") "" } →
      ∃ r, JobExtraction.validateJsonStructure w = Except.ok r ∧
        (r.employment_type = "full-time" ∨ r.employment_type = "part-time" ∨
          r.employment_type = "contract" ∨ r.employment_type = "temporary") ∧
        ((fieldOf w "employment_type").isStr = false →
          r.employment_type = "full-time") ∧
        (∀ s, fieldOf w "employment_type" = JsonValue.str s →
          s ≠ "full-time" → s ≠ "part-time" → s ≠ "contract" → s ≠ "temporary" →
          r.employment_type = "full-time") ∧
        ((fieldOf w "requirements").isArr = false →
          r.requirements = ["Professional certification required"]) ∧
        (∀ l, fieldOf w "requirements" = JsonValue.arr l →
          r.requirements =
            l.filterMap (fun x => match x with | .str s => some s | _ => none)) ∧
        ((fieldOf w "title").isStr = false → r.title = "Healthcare Professional") ∧
        ((fieldOf w "description").isStr = false →
          r.description = "Join our healthcare team.") ∧
        ((fieldOf w "location").isStr = false → r.location = "Multiple locations") ∧
        ((fieldOf w "apply_url").isStr = false → r.apply_url = "") := by
    intro w hw
    refine ⟨_, hw, etField_mem _, fun h => etField_default _ h, ?_,
      fun h => reqField_default _ h, ?_, fun h => strField_default _ _ h,
      fun h => strField_default _ _ h, fun h => strField_default _ _ h,
      fun h => strField_default _ _ h⟩
    · intro s hs h1 h2 h3 h4
      have h5 := etField_str_default s h1 h2 h3 h4
      rw [← hs] at h5
      exact h5
    · intro l hl
      have h2 := reqField_arr l
      rw [← hl] at h2
      exact h2
  cases v with
  | null => exact absurd rfl hn
  | undefined => exact absurd rfl hu
  | bool b => exact main _ rfl
  | num m e => exact main _ rfl
  | str s => exact main _ rfl
  | arr l => exact main _ rfl
  | obj fs => exact main _ rfl

/-- C5 witness: the amended statement applied at the empty object. -/
theorem C5_witness :
    ∃ r, JobExtraction.validateJsonStructure (JsonValue.obj []) = Except.ok r ∧
      (r.employment_type = "full-time" ∨ r.employment_type = "part-time" ∨
        r.employment_type = "contract" ∨ r.employment_type = "temporary") ∧
      ((fieldOf (JsonValue.obj []) "employment_type").isStr = false →
        r.employment_type = "full-time") ∧
      (∀ s, fieldOf (JsonValue.obj []) "employment_type" = JsonValue.str s →
        s ≠ "full-time" → s ≠ "part-time" → s ≠ "contract" → s ≠ "temporary" →
        r.employment_type = "full-time") ∧
      ((fieldOf (JsonValue.obj []) "requirements").isArr = false →
        r.requirements = ["Professional certification required"]) ∧
      (∀ l, fieldOf (JsonValue.obj []) "requirements" = JsonValue.arr l →
        r.requirements =
          l.filterMap (fun x => match x with | .str s => some s | _ => none)) ∧
      ((fieldOf (JsonValue.obj []) "title").isStr = false →
        r.title = "Healthcare Professional") ∧
      ((fieldOf (JsonValue.obj []) "description").isStr = false →
        r.description = "Join our healthcare team.") ∧
      ((fieldOf (JsonValue.obj []) "location").isStr = false →
        r.location = "Multiple locations") ∧
      ((fieldOf (JsonValue.obj []) "apply_url").isStr = false → r.apply_url = "") :=
  C5_validate_shape (JsonValue.obj []) (fun h => JsonValue.noConfusion h)
    (fun h => JsonValue.noConfusion h)
